import Mathlib

/-!
Shallow embedding of the numerical core of CCMpredPy.

Arrays are embedded as total functions from natural-number indices to
rationals; NumPy `reshape`/`transpose` index arithmetic becomes explicit
mixed-radix encoding and decoding of flat offsets.  All definitions are
translated from the Python source files under `ccmpred/`.
-/

namespace CCMpred

/-! ## CD parameter packing (ccmpred/objfun/cd/__init__.py) -/

/-- Flat single-potential block size, `nsingle = ncol * 20`. -/
def nsingleCD (L : ℕ) : ℕ := L * 20

/-- Flat vector size for the CD packing, `nvar = nsingle + ncol*ncol*21*21`. -/
def nvarCD (L : ℕ) : ℕ := nsingleCD L + L * L * 21 * 21

/-- `ContrastiveDivergence.structured_to_linear`: builds the flat vector.
The single block holds `x_single` row-major (`(i,a) ↦ 20*i+a`); the pair
block holds `out_x_pair[i,a,j,b] = x_pair[i,j,a,b]` (a `(0,2,1,3)`
transpose) in row-major order over the shape `(L,21,L,21)`. -/
def cdStructuredToLinear (L : ℕ) (v : ℕ → ℕ → ℚ) (w : ℕ → ℕ → ℕ → ℕ → ℚ) :
    ℕ → ℚ := fun k =>
  if k < nsingleCD L then v (k / 20) (k % 20)
  else if k < nvarCD L then
    w ((k - nsingleCD L) / 21 / L / 21) (((k - nsingleCD L) / 21) % L)
      (((k - nsingleCD L) / 21 / L) % 21) ((k - nsingleCD L) % 21)
  else 0

/-- `ContrastiveDivergence.linear_to_structured`, single part:
`x[:nsingle].reshape((ncol, 20))`. -/
def cdLinearToStructuredSingle (x : ℕ → ℚ) : ℕ → ℕ → ℚ := fun i a =>
  x (20 * i + a)

/-- `ContrastiveDivergence.linear_to_structured` with `add_gap_state=True`:
the single potentials are widened to `L×21` with a zero gap column. -/
def cdLinearToStructuredSingleGap (x : ℕ → ℚ) : ℕ → ℕ → ℚ := fun i a =>
  if a < 20 then x (20 * i + a) else 0

/-- `ContrastiveDivergence.linear_to_structured`, pair part:
`np.transpose(x[nsingle:].reshape((ncol, 21, ncol, 21)), (0, 2, 1, 3))`,
so `x_pair[i,j,a,b]` reads flat offset `nsingle + ((i*21+a)*L+j)*21+b`. -/
def cdLinearToStructuredPair (L : ℕ) (x : ℕ → ℚ) : ℕ → ℕ → ℕ → ℕ → ℚ :=
  fun i j a b => x (nsingleCD L + (((i * 21 + a) * L + j) * 21 + b))

/-! ## PLL parameter packing (ccmpred/objfun/pll/__init__.py) -/

/-- `nsingle_padded = nsingle + 32 - (nsingle % 32)`. -/
def nsinglePaddedPLL (L : ℕ) : ℕ := L * 20 + 32 - (L * 20) % 32

/-- Flat vector size for the PLL packing,
`nvar = nsingle_padded + ncol*ncol*21*32`. -/
def nvarPLL (L : ℕ) : ℕ := nsinglePaddedPLL L + L * L * 21 * 32

/-- PLL `structured_to_linear`: the single block is `x_single.T` row-major
(`(a,i) ↦ a*L+i`), the padding gap is zero, and the pair block holds
`out_x_pair[b,j,a,i] = x_pair[i,j,a,b]` (a `(3,1,2,0)` transpose into the
shape `(21,L,32,L)`, rows `21 ≤ a < 32` left zero). -/
def pllStructuredToLinear (L : ℕ) (v : ℕ → ℕ → ℚ) (w : ℕ → ℕ → ℕ → ℕ → ℚ) :
    ℕ → ℚ := fun k =>
  if k < L * 20 then v (k % L) (k / L)
  else if k < nsinglePaddedPLL L then 0
  else if k < nvarPLL L then
    if ((k - nsinglePaddedPLL L) / L) % 32 < 21 then
      w ((k - nsinglePaddedPLL L) % L)
        (((k - nsinglePaddedPLL L) / L / 32) % L)
        (((k - nsinglePaddedPLL L) / L) % 32)
        ((k - nsinglePaddedPLL L) / L / 32 / L)
    else 0
  else 0

/-- PLL `linear_to_structured`, single part:
`x[:nsingle].reshape((20, ncol)).T`, so `x_single[i,a]` reads flat offset
`a*L+i`. -/
def pllLinearToStructuredSingle (L : ℕ) (x : ℕ → ℚ) : ℕ → ℕ → ℚ := fun i a =>
  x (a * L + i)

/-- PLL `linear_to_structured`, pair part:
`np.transpose(x[nsingle_padded:].reshape((21, ncol, 32, ncol)), (3,1,2,0))`,
so `x_pair[i,j,a,b]` reads flat offset
`nsingle_padded + ((b*L+j)*32+a)*L+i`. -/
def pllLinearToStructuredPair (L : ℕ) (x : ℕ → ℚ) : ℕ → ℕ → ℕ → ℕ → ℚ :=
  fun i j a b => x (nsinglePaddedPLL L + ((((b * L + j) * 32 + a) * L) + i))

/-! ## CD objective evaluation (ccmpred/objfun/cd/__init__.py, evaluate) -/

/-- Gap-count zeroing for single counts: `counts[:, 20] = 0`. -/
def zeroGapSingle (c : ℕ → ℕ → ℚ) : ℕ → ℕ → ℚ := fun i a =>
  if a = 20 then 0 else c i a

/-- Gap-count zeroing for pair counts:
`counts[:, :, :, 20] = 0` and `counts[:, :, 20, :] = 0`. -/
def zeroGapPair (c : ℕ → ℕ → ℕ → ℕ → ℚ) : ℕ → ℕ → ℕ → ℕ → ℚ :=
  fun i j a b => if a = 20 ∨ b = 20 then 0 else c i j a b

/-- `ContrastiveDivergence.evaluate`.  The sampled-alignment counts
(computed by the external C extension `ccmpred.counts.both_counts` on the
Gibbs-sampled MSA) enter as the parameters `sampleCS`/`sampleCP`, and the
output of `self.regularization(x_single, x_pair)` (module
`ccmpred/regularization.py`, an external collaborator) enters as
`gSingleReg`/`gPairReg`.  The body mirrors the source: zero the gap counts
of the sampled MSA, subtract the stored MSA counts, add the regularizer
gradient (singles only on columns `< 20`), zero the gap gradients and the
pair diagonal, and pack with `structured_to_linear` on the `L×20` single
slice.  Returns `(-1, g)`. -/
def cdEvaluate (L : ℕ) (msaCS gSingleReg : ℕ → ℕ → ℚ)
    (msaCP gPairReg : ℕ → ℕ → ℕ → ℕ → ℚ)
    (sampleCS : ℕ → ℕ → ℚ) (sampleCP : ℕ → ℕ → ℕ → ℕ → ℚ) :
    ℚ × (ℕ → ℚ) :=
  (-1, cdStructuredToLinear L
    (fun i a =>
      if a = 20 then 0
      else if a < 20 then
        zeroGapSingle sampleCS i a - msaCS i a + gSingleReg i a
      else zeroGapSingle sampleCS i a - msaCS i a)
    (fun i j a b =>
      if i = j ∧ i < L then 0
      else if a = 20 ∨ b = 20 then 0
      else zeroGapPair sampleCP i j a b - msaCP i j a b + gPairReg i j a b))

/-! ## CD sample-alignment initialization
(ccmpred/objfun/cd/__init__.py, init_sample_alignment) -/

/-- `ContrastiveDivergence.init_sample_alignment`.  When
`n_samples == 0 or n_samples < nrow` the input MSA and weights are
returned unchanged; otherwise `seq_id = range(nrow) * (n_samples / nrow)`
replicates the rows `⌊n_samples/nrow⌋` times (Python 2 integer division)
and the replicated weight list is divided elementwise by the same integer
quotient. -/
def initSampleAlignment (msa : List (List ℕ)) (weights : List ℚ)
    (nSamples : ℕ) : List (List ℕ) × List ℚ :=
  if nSamples = 0 ∨ nSamples < msa.length then (msa, weights)
  else
    ((List.replicate (nSamples / msa.length) msa).flatten,
     ((List.replicate (nSamples / msa.length) weights).flatten).map
       (fun wt => wt / ((nSamples / msa.length : ℕ) : ℚ)))

/-! ## PLL objective evaluation (ccmpred/objfun/pll/__init__.py, evaluate) -/

/-- `PseudoLikelihood.evaluate`.  The raw pseudo-likelihood value and
gradient produced by the external C extension
`ccmpred.objfun.pll.cext.evaluate` enter as `fxRaw`/`gRaw`, and the output
`(fx_reg, g_single_reg, g_pair_reg)` of
`self.regularization(x_single, x_pair)` (an external collaborator) enters
as `fxReg`/`gSingleReg`/`gPairReg`.  The body mirrors the source:
`fx += fx_reg`; `g[:nsingle] += g_single_reg.reshape(-1)` (row-major over
the shape `(L,20)`); `g[nsingle_padded:] +=
np.transpose(g_pair_reg, (3,1,2,0)).reshape(-1)` (row-major over the shape
`(21,L,32,L)`, entry `(b,j,a,i)` holding `g_pair_reg[i,j,a,b]`). -/
def pllEvaluate (L : ℕ) (fxRaw fxReg : ℚ) (gRaw : ℕ → ℚ)
    (gSingleReg : ℕ → ℕ → ℚ) (gPairReg : ℕ → ℕ → ℕ → ℕ → ℚ) :
    ℚ × (ℕ → ℚ) :=
  (fxRaw + fxReg,
   fun k =>
     if k < L * 20 then gRaw k + gSingleReg (k / 20) (k % 20)
     else if k < nsinglePaddedPLL L then gRaw k
     else if k < nvarPLL L then
       gRaw k + gPairReg ((k - nsinglePaddedPLL L) % L)
         (((k - nsinglePaddedPLL L) / L / 32) % L)
         (((k - nsinglePaddedPLL L) / L) % 32)
         ((k - nsinglePaddedPLL L) / L / 32 / L)
     else gRaw k)

/-! ## Raw-parameter initialization (init_from_raw of both objectives) -/

/-- The raw-parameter triple handled by `ccmpred.raw.CCMRaw`: a column
count, the structured single/pair potentials, and the column count of the
`x_single` array (`21` in the raw-file contract, which round-trips
`v[L][21]`). -/
structure CCMRaw where
  ncol : ℕ
  xSingleCols : ℕ
  xSingle : ℕ → ℕ → ℚ
  xPair : ℕ → ℕ → ℕ → ℕ → ℚ

/-- The instance attributes assigned by `PseudoLikelihood.__init__`
(which does not call the base-class `__init__`). -/
def pllInstanceAttrs : List String :=
  ["msa", "nrow", "ncol", "nsingle", "nsingle_padded", "nvar", "weights",
   "regularization", "g", "g2"]

/-- `PseudoLikelihood.init_from_raw`.  It raises
`Exception('Mismatching number of columns ...')` when
`msa.shape[1] != raw.ncol`.  On the matching branch it first runs
`structured_to_linear(raw.x_single, raw.x_pair)`, whose assignment
`x[:nsingle] = x_single.T.reshape(-1)` raises a broadcast `ValueError`
whenever the `x_single` value count `L·xSingleCols` differs from the
`20·L` slot (NumPy's length-1 broadcast degenerate is not modelled; the
raw contract fixes `xSingleCols = 21`).  It then runs
`res.v_centering[:] = raw.x_single.reshape(-1)`, which raises
`AttributeError` because `v_centering` is not among the instance's
attributes. -/
def pllInitFromRaw (msaNcol : ℕ) (raw : CCMRaw) : Except String (ℕ → ℚ) :=
  if msaNcol ≠ raw.ncol then
    .error "Mismatching number of columns between MSA and raw"
  else if raw.xSingleCols * raw.ncol ≠ 20 * raw.ncol then
    .error "ValueError: could not broadcast input array"
  else if pllInstanceAttrs.contains "v_centering" then
    .ok (pllStructuredToLinear raw.ncol raw.xSingle raw.xPair)
  else
    .error "AttributeError: PseudoLikelihood instance has no attribute v_centering"

/-- `ContrastiveDivergence.init_from_raw`: raises the column-mismatch
exception when `msa.shape[1] != raw.ncol`, otherwise returns
`structured_to_linear(raw.x_single[:, :20], raw.x_pair)`.  The `:20`
slice clamps, so its value count is `L·min(xSingleCols, 20)`; the
broadcast check only fires for singles narrower than 20 columns, never
for the contract's `L×21` shape, and the packing reads single columns
`< 20` only, so the slice itself needs no separate model. -/
def cdInitFromRaw (msaNcol : ℕ) (raw : CCMRaw) : Except String (ℕ → ℚ) :=
  if msaNcol ≠ raw.ncol then
    .error "Mismatching number of columns between MSA and raw"
  else if min raw.xSingleCols 20 * raw.ncol ≠ 20 * raw.ncol then
    .error "ValueError: could not broadcast input array"
  else .ok (cdStructuredToLinear raw.ncol raw.xSingle raw.xPair)

/-! ## Contact-matrix scoring (ccmpred/io/contactmatrix.py) -/

/-- Column mean `np.mean(cmat, axis=0)[j]` of an `L×L` matrix. -/
def colMean (L : ℕ) (S : ℕ → ℕ → ℚ) (j : ℕ) : ℚ :=
  (∑ i ∈ Finset.range L, S i j) / L

/-- Grand mean `np.mean(cmat)` of an `L×L` matrix. -/
def grandMean (L : ℕ) (S : ℕ → ℕ → ℚ) : ℚ :=
  (∑ i ∈ Finset.range L, ∑ j ∈ Finset.range L, S i j) / (L * L)

/-- `apc(cmat)`: subtracts the rank-one term
`mean[:, None] * mean[None, :] / np.mean(cmat)` built from the column
means. -/
def apc (L : ℕ) (S : ℕ → ℕ → ℚ) : ℕ → ℕ → ℚ := fun i j =>
  S i j - colMean L S i * colMean L S j / grandMean L S

/-- The inner sum of `frobenius_score`: `np.sum(x * x, axis=(2, 3))`
where both trailing axes of the input have extent `n`; the source slices
nothing, so the sum runs over the full extent of both axes. -/
def sumSq (n : ℕ) (w : ℕ → ℕ → ℕ → ℕ → ℚ) (i j : ℕ) : ℚ :=
  ∑ a ∈ Finset.range n, ∑ b ∈ Finset.range n, w i j a b * w i j a b

/-- `frobenius_score(x)`: `np.sqrt(np.sum(x * x, axis=(2, 3)))` on a
pair-potential tensor whose trailing axes have extent `n`. -/
noncomputable def frobeniusScore (n : ℕ) (w : ℕ → ℕ → ℕ → ℕ → ℚ)
    (i j : ℕ) : ℝ :=
  Real.sqrt ((sumSq n w i j : ℚ) : ℝ)

/-! ## Tree traversal (ccmpred/objfun/treecd/__init__.py, bfs_iterator;
identical code in ccmpred/trees.py) -/

/-- A clade of a phylogenetic tree: a node carrying its list of child
clades (`Bio.Phylo` clade stripped to the structure `bfs_iterator`
inspects). -/
inductive Clade where
  | mk : List Clade → Clade

/-- The `clades` attribute of a clade. -/
def Clade.clades : Clade → List Clade
  | .mk cs => cs

mutual

/-- The nested generator `inner` of `bfs_iterator`: yields the children of
the clade, then for each child in order the `inner` traversal of that
child. -/
def bfsInner : Clade → List Clade
  | .mk cs => cs ++ bfsInnerList cs

/-- The loop `for c in clade.clades: yield from inner(c)` of
`bfs_iterator`, concatenating the `inner` traversals of a list of
clades. -/
def bfsInnerList : List Clade → List Clade
  | [] => []
  | c :: cs => bfsInner c ++ bfsInnerList cs

end

/-- `bfs_iterator(clade)`: yields the clade itself, then the `inner`
traversal. -/
def bfs_iterator (c : Clade) : List Clade := c :: bfsInner c

mutual

/-- Depth-annotated variant of `bfsInner`: yields the same clades in the
same order, each paired with its depth below the traversal root (the root
passed to `bfs_iterator` has depth 0). -/
def bfsInnerDepth (d : ℕ) : Clade → List (Clade × ℕ)
  | .mk cs => cs.map (fun c => (c, d + 1)) ++ bfsInnerDepthList (d + 1) cs

/-- Depth-annotated variant of `bfsInnerList`. -/
def bfsInnerDepthList (d : ℕ) : List Clade → List (Clade × ℕ)
  | [] => []
  | c :: cs => bfsInnerDepth d c ++ bfsInnerDepthList d cs

end

/-- Depth-annotated variant of `bfs_iterator`. -/
def bfsDepth (c : Clade) : List (Clade × ℕ) := (c, 0) :: bfsInnerDepth 0 c

/-! ## Triplet output (ccmpred/triplets/write.py) -/

/-- The parts of a raw result that `write_triplets` consumes: the optional
`extra_results` entries under the keys `triplets` (coordinate tuples) and
`x_triplet` (potentials). -/
structure TripletRaw where
  triplets : Option (List (List ℕ))
  xTriplet : Option (List ℚ)

/-- `write_triplets(f, raw)`: errors when either `extra_results` key is
missing, otherwise zips coordinates with potentials, sorts by potential
descending (`sort(key=itemgetter(1), reverse=True)`, modelled by a stable
insertion sort), and emits the header count `len(triplets)` followed by
one entry per zipped triplet. -/
def writeTriplets (raw : TripletRaw) :
    Except String (ℕ × List (List ℕ × ℚ)) :=
  match raw.triplets with
  | none => .error "Raw data does not have triplets information"
  | some t =>
    match raw.xTriplet with
    | none => .error "Raw data does not have triplet potentials"
    | some xt =>
      .ok ((t.zip xt).length,
        (t.zip xt).insertionSort (fun p q => q.2 ≤ p.2))

/-! ## TreeCD dispatch (ccmpred/objfun/treecd/__init__.py) -/

/-- The positional parameters of `ContrastiveDivergence.__init__` after
`self`, none of which has a default value. -/
def cdInitParams : List String :=
  ["msa", "freqs", "weights", "regularization", "n_samples", "gibbs_steps",
   "persistent", "pll"]

/-- The positional arguments `TreeContrastiveDivergence.__init__` passes
to `super().__init__`. -/
def treecdSuperInitArgs : List String :=
  ["msa", "freqs", "weights", "regularization", "n_leaves"]

/-- The sampler method name that `ContrastiveDivergence.evaluate` (which
`TreeContrastiveDivergence` inherits unchanged) dispatches to for a given
`pll` flag. -/
def cdEvaluateSamplerName (pll : Bool) : String :=
  if pll then "sample_position_in_sequences" else "gibbs_sample_sequences"

/-- The method of `TreeContrastiveDivergence` that invokes the
tree-mutation primitive `mutate_along_tree` seeded by `seq0`. -/
def treecdSamplerName : String := "sample_sequences"

/-! ## Concrete example inputs used in witnesses and counterexamples -/

/-- Example single potentials used in witnesses. -/
def vEx : ℕ → ℕ → ℚ := fun i a => (i * 100 + a : ℚ)

/-- Example pair potentials used in witnesses. -/
def wEx : ℕ → ℕ → ℕ → ℕ → ℚ := fun i j a b =>
  (i * 100000 + j * 10000 + a * 100 + b : ℚ)

/-- Example flat vector used in witnesses. -/
def flatEx : ℕ → ℚ := fun k => (k : ℚ)

/-- Example two-row MSA with one column. -/
def msaEx3 : List (List ℕ) := [[0], [0]]

/-- Example weights for `msaEx3`. -/
def weightsEx3 : List ℚ := [1, 1]

/-- Example raw-parameter value with two columns and the raw-file
contract's 21-column singles. -/
def rawEx : CCMRaw := ⟨2, 21, vEx, wEx⟩

/-- Example raw-parameter value with two columns and 20-column singles
(no broadcast mismatch, so initialization reaches the `v_centering`
line). -/
def rawEx20 : CCMRaw := ⟨2, 20, vEx, wEx⟩

/-- The worked APC input `S = [[0,2],[2,0]]`. -/
def matEx7 : ℕ → ℕ → ℚ := fun i j =>
  if (i = 0 ∧ j = 1) ∨ (i = 1 ∧ j = 0) then 2 else 0

/-- A pair-potential tensor supported on the gap-gap entry only. -/
def wGapEx : ℕ → ℕ → ℕ → ℕ → ℚ := fun _ _ a b =>
  (if a = 20 then 1 else 0) * (if b = 20 then 1 else 0)

/-- A tree on which `bfs_iterator` violates level order: the root has two
children, the first child's subtree has depth 2 and the second child's
subtree has depth 1. -/
def cladeEx : Clade := .mk [.mk [.mk [.mk []]], .mk [.mk []]]

/-- Example triplet coordinate list. -/
def tripletsEx : List (List ℕ) := [[0, 1, 2, 3, 4, 5], [1, 2, 3, 4, 5, 6]]

/-- Example triplet potentials. -/
def xTripletEx : List ℚ := [1, 5]

/-- Example triplet raw result with both keys present. -/
def tripletRawEx : TripletRaw := ⟨some tripletsEx, some xTripletEx⟩

/-- Example triplet raw result missing the `x_triplet` key. -/
def tripletRawMissingEx : TripletRaw :=
  ⟨some [[0, 1, 2, 3, 4, 5]], none⟩

end CCMpred

namespace CCMpred

/-! ## Mixed-radix encode/decode helper lemmas -/

theorem decode_mod {e r n : ℕ} (h : r < n) : (e * n + r) % n = r := by
  rw [Nat.add_comm, Nat.add_mul_mod_self_right, Nat.mod_eq_of_lt h]

theorem decode_div {e r n : ℕ} (h : r < n) : (e * n + r) / n = e := by
  rw [Nat.add_comm, Nat.add_mul_div_right _ _ (Nat.pos_of_ne_zero (by omega)),
    Nat.div_eq_of_lt h, Nat.zero_add]

theorem encode_lt {e E r n : ℕ} (he : e < E) (hr : r < n) :
    e * n + r < E * n := by
  calc e * n + r < e * n + n := by omega
    _ = (e + 1) * n := by ring
    _ ≤ E * n := Nat.mul_le_mul_right n he

/-! ## Roundtrip lemmas for the CD packing -/

theorem cd_roundtrip_single (L : ℕ) (v : ℕ → ℕ → ℚ) (w : ℕ → ℕ → ℕ → ℕ → ℚ)
    {i a : ℕ} (hi : i < L) (ha : a < 20) :
    cdLinearToStructuredSingle (cdStructuredToLinear L v w) i a = v i a := by
  unfold cdLinearToStructuredSingle cdStructuredToLinear
  have hk : 20 * i + a < nsingleCD L := by
    unfold nsingleCD
    have := encode_lt hi ha
    omega
  rw [if_pos hk]
  rw [Nat.mul_comm 20 i, decode_div ha, decode_mod ha]

theorem cd_roundtrip_pair (L : ℕ) (v : ℕ → ℕ → ℚ) (w : ℕ → ℕ → ℕ → ℕ → ℚ)
    {i j a b : ℕ} (hi : i < L) (hj : j < L) (ha : a < 21) (hb : b < 21) :
    cdLinearToStructuredPair L (cdStructuredToLinear L v w) i j a b =
      w i j a b := by
  unfold cdLinearToStructuredPair cdStructuredToLinear
  set m := ((i * 21 + a) * L + j) * 21 + b with hm
  have h1 : i * 21 + a < L * 21 := encode_lt hi ha
  have h2 : (i * 21 + a) * L + j < L * 21 * L := encode_lt h1 hj
  have h3 : m < L * 21 * L * 21 := encode_lt h2 hb
  have hbig : nsingleCD L + m < nvarCD L := by
    unfold nvarCD
    have : L * 21 * L * 21 = L * L * 21 * 21 := by ring
    omega
  have hns : ¬ (nsingleCD L + m < nsingleCD L) := by omega
  rw [if_neg hns, if_pos hbig]
  have hsub : nsingleCD L + m - nsingleCD L = m := by omega
  rw [hsub, hm]
  rw [decode_mod hb, decode_div hb, decode_mod hj, decode_div hj,
    decode_mod ha, decode_div ha]

/-! ## Roundtrip lemmas for the PLL packing -/

theorem pll_pad_lower (L : ℕ) : L * 20 ≤ nsinglePaddedPLL L := by
  unfold nsinglePaddedPLL
  have : (L * 20) % 32 < 32 := Nat.mod_lt _ (by omega)
  omega

theorem pll_roundtrip_single (L : ℕ) (v : ℕ → ℕ → ℚ) (w : ℕ → ℕ → ℕ → ℕ → ℚ)
    {i a : ℕ} (hi : i < L) (ha : a < 20) :
    pllLinearToStructuredSingle L (pllStructuredToLinear L v w) i a =
      v i a := by
  unfold pllLinearToStructuredSingle pllStructuredToLinear
  have hk : a * L + i < L * 20 := by
    have := encode_lt ha hi
    omega
  rw [if_pos hk, decode_mod hi, decode_div hi]

theorem pll_roundtrip_pair (L : ℕ) (v : ℕ → ℕ → ℚ) (w : ℕ → ℕ → ℕ → ℕ → ℚ)
    {i j a b : ℕ} (hi : i < L) (hj : j < L) (ha : a < 21) (hb : b < 21) :
    pllLinearToStructuredPair L (pllStructuredToLinear L v w) i j a b =
      w i j a b := by
  unfold pllLinearToStructuredPair pllStructuredToLinear
  set m := ((b * L + j) * 32 + a) * L + i with hm
  have ha32 : a < 32 := by omega
  have h1 : b * L + j < 21 * L := by
    have := encode_lt hb hj
    omega
  have h2 : (b * L + j) * 32 + a < 21 * L * 32 := encode_lt h1 ha32
  have h3 : m < 21 * L * 32 * L := encode_lt h2 hi
  have hbig : nsinglePaddedPLL L + m < nvarPLL L := by
    unfold nvarPLL
    have : 21 * L * 32 * L = L * L * 21 * 32 := by ring
    omega
  have hpad := pll_pad_lower L
  have hns : ¬ (nsinglePaddedPLL L + m < L * 20) := by omega
  have hns2 : ¬ (nsinglePaddedPLL L + m < nsinglePaddedPLL L) := by omega
  rw [if_neg hns, if_neg hns2, if_pos hbig]
  have hsub : nsinglePaddedPLL L + m - nsinglePaddedPLL L = m := by omega
  rw [hsub, hm]
  rw [decode_mod hi, decode_div hi, decode_mod ha32, decode_div ha32,
    decode_mod hj, decode_div hj, if_pos ha]

/-- C1: for valid parameters (`v` of shape L×20, `w` of shape L×L×21×21),
packing into the flat optimization vector and unpacking recovers the
structured parameters exactly, for both the CD packing and the PLL
packing. -/
theorem pack_unpack_roundtrip (L : ℕ) (v : ℕ → ℕ → ℚ)
    (w : ℕ → ℕ → ℕ → ℕ → ℚ) :
    (∀ i a, i < L → a < 20 →
      cdLinearToStructuredSingle (cdStructuredToLinear L v w) i a = v i a) ∧
    (∀ i j a b, i < L → j < L → a < 21 → b < 21 →
      cdLinearToStructuredPair L (cdStructuredToLinear L v w) i j a b =
        w i j a b) ∧
    (∀ i a, i < L → a < 20 →
      pllLinearToStructuredSingle L (pllStructuredToLinear L v w) i a =
        v i a) ∧
    (∀ i j a b, i < L → j < L → a < 21 → b < 21 →
      pllLinearToStructuredPair L (pllStructuredToLinear L v w) i j a b =
        w i j a b) := by
  refine ⟨fun i a hi ha => cd_roundtrip_single L v w hi ha,
    fun i j a b hi hj ha hb => cd_roundtrip_pair L v w hi hj ha hb,
    fun i a hi ha => pll_roundtrip_single L v w hi ha,
    fun i j a b hi hj ha hb => pll_roundtrip_pair L v w hi hj ha hb⟩

/-- Witness for C1 at `L = 2` and concrete indices. -/
theorem pack_unpack_roundtrip_witness :
    cdLinearToStructuredSingle (cdStructuredToLinear 2 vEx wEx) 1 3 =
        vEx 1 3 ∧
    cdLinearToStructuredPair 2 (cdStructuredToLinear 2 vEx wEx) 1 0 20 5 =
        wEx 1 0 20 5 ∧
    pllLinearToStructuredSingle 2 (pllStructuredToLinear 2 vEx wEx) 0 19 =
        vEx 0 19 ∧
    pllLinearToStructuredPair 2 (pllStructuredToLinear 2 vEx wEx) 0 1 20 20 =
        wEx 0 1 20 20 :=
  ⟨(pack_unpack_roundtrip 2 vEx wEx).1 1 3 (by decide) (by decide),
    (pack_unpack_roundtrip 2 vEx wEx).2.1 1 0 20 5 (by decide) (by decide)
      (by decide) (by decide),
    (pack_unpack_roundtrip 2 vEx wEx).2.2.1 0 19 (by decide) (by decide),
    (pack_unpack_roundtrip 2 vEx wEx).2.2.2 0 1 20 20 (by decide) (by decide)
      (by decide) (by decide)⟩

/-- C2: after every evaluation of the CD objective, the returned gradient,
viewed as structured arrays (with the gap state materialized for the
singles), has zero gap entries and a zero pair diagonal. -/
theorem cd_gap_gradient_zero (L : ℕ) (msaCS gSingleReg : ℕ → ℕ → ℚ)
    (msaCP gPairReg : ℕ → ℕ → ℕ → ℕ → ℚ)
    (sampleCS : ℕ → ℕ → ℚ) (sampleCP : ℕ → ℕ → ℕ → ℕ → ℚ)
    {i j a b : ℕ} (hi : i < L) (hj : j < L) (ha : a < 21) (hb : b < 21) :
    cdLinearToStructuredSingleGap
        ((cdEvaluate L msaCS gSingleReg msaCP gPairReg sampleCS
          sampleCP).2) i 20 = 0 ∧
    cdLinearToStructuredPair L
        ((cdEvaluate L msaCS gSingleReg msaCP gPairReg sampleCS
          sampleCP).2) i j a 20 = 0 ∧
    cdLinearToStructuredPair L
        ((cdEvaluate L msaCS gSingleReg msaCP gPairReg sampleCS
          sampleCP).2) i j 20 b = 0 ∧
    cdLinearToStructuredPair L
        ((cdEvaluate L msaCS gSingleReg msaCP gPairReg sampleCS
          sampleCP).2) i i a b = 0 := by
  refine ⟨by simp [cdLinearToStructuredSingleGap], ?_, ?_, ?_⟩
  · simp only [cdEvaluate]
    rw [cd_roundtrip_pair L _ _ hi hj ha (by norm_num)]
    simp
  · simp only [cdEvaluate]
    rw [cd_roundtrip_pair L _ _ hi hj (by norm_num) hb]
    simp
  · simp only [cdEvaluate]
    rw [cd_roundtrip_pair L _ _ hi hi ha hb]
    simp [hi]

/-- Witness for C2 at `L = 2` and concrete inputs. -/
theorem cd_gap_gradient_zero_witness :
    cdLinearToStructuredSingleGap
        ((cdEvaluate 2 vEx vEx wEx wEx vEx wEx).2) 0 20 = 0 ∧
    cdLinearToStructuredPair 2
        ((cdEvaluate 2 vEx vEx wEx wEx vEx wEx).2) 0 1 3 20 = 0 ∧
    cdLinearToStructuredPair 2
        ((cdEvaluate 2 vEx vEx wEx wEx vEx wEx).2) 0 1 20 4 = 0 ∧
    cdLinearToStructuredPair 2
        ((cdEvaluate 2 vEx vEx wEx wEx vEx wEx).2) 0 0 3 4 = 0 :=
  cd_gap_gradient_zero 2 vEx vEx wEx wEx vEx wEx (by decide) (by decide)
    (by decide) (by decide)

/-- Sum of an elementwise division of a list of rationals. -/
theorem list_sum_map_div (l : List ℚ) (c : ℚ) :
    (l.map (fun x => x / c)).sum = l.sum / c := by
  induction l with
  | nil => simp
  | cons h t ih => simp [ih, add_div]

/-- C3 counterexample: with two rows of weight 1 and a requested sample
count of 3, the code leaves the replicated weights unscaled (the integer
quotient `⌊3/2⌋ = 1` is used as divisor), whereas the claim's scale factor
`N/Ñ = 2/3` would give `[2/3, 2/3]`. -/
theorem init_sample_alignment_counterexample :
    (initSampleAlignment msaEx3 weightsEx3 3).2 = [1, 1] ∧
    (initSampleAlignment msaEx3 weightsEx3 3).2 ≠ [2 / 3, 2 / 3] := by
  have h : (initSampleAlignment msaEx3 weightsEx3 3).2 = [1, 1] := by
    rw [initSampleAlignment]
    norm_num [msaEx3, weightsEx3]
  refine ⟨h, ?_⟩
  rw [h]
  intro hcontra
  have := List.head_eq_of_cons_eq hcontra
  norm_num at this

/-- C3 amended: when a sample count `Ñ > N` is requested,
`init_sample_alignment` replicates the original MSA `⌊Ñ/N⌋` times and
scales each copy's weights by `1/⌊Ñ/N⌋` (not `N/Ñ`), so the total weight
of the sampled alignment equals the total weight of the input
alignment. -/
theorem init_sample_alignment_amended (msa : List (List ℕ))
    (weights : List ℚ) (nSamples : ℕ) (hrow : 0 < msa.length)
    (hlt : msa.length < nSamples) :
    (initSampleAlignment msa weights nSamples).1 =
      (List.replicate (nSamples / msa.length) msa).flatten ∧
    (initSampleAlignment msa weights nSamples).2 =
      (List.replicate (nSamples / msa.length)
        (weights.map
          (fun wt => wt / ((nSamples / msa.length : ℕ) : ℚ)))).flatten ∧
    (initSampleAlignment msa weights nSamples).2.sum = weights.sum := by
  have hcond : ¬ (nSamples = 0 ∨ nSamples < msa.length) := by omega
  have hk : 1 ≤ nSamples / msa.length :=
    (Nat.one_le_div_iff hrow).2 (le_of_lt hlt)
  have hkQ : ((nSamples / msa.length : ℕ) : ℚ) ≠ 0 := by
    simp only [ne_eq, Nat.cast_eq_zero]
    omega
  refine ⟨?_, ?_, ?_⟩
  · rw [initSampleAlignment, if_neg hcond]
  · rw [initSampleAlignment, if_neg hcond]
    simp [List.map_flatten, List.map_replicate]
  · rw [initSampleAlignment, if_neg hcond]
    simp only [List.map_flatten, List.map_replicate, List.sum_flatten,
      List.sum_replicate, list_sum_map_div]
    rw [nsmul_eq_mul, mul_div_cancel₀ _ hkQ]

/-- Witness for C3 (amended) on the two-row example with `Ñ = 3`. -/
theorem init_sample_alignment_amended_witness :
    0 < msaEx3.length ∧ msaEx3.length < 3 ∧
    (initSampleAlignment msaEx3 weightsEx3 3).2.sum = weightsEx3.sum :=
  ⟨by decide, by decide,
    (init_sample_alignment_amended msaEx3 weightsEx3 3 (by decide)
      (by decide)).2.2⟩

/-- C4: `PseudoLikelihood.evaluate` adds the regularizer after the raw
PLL computation: the returned `fx` is the raw value plus `Ω`; the first
`L·20` gradient entries receive the addition of `∂Ω/∂v` (row-major over
`(L,20)`); the untouched padding region keeps the raw gradient; and the
pair-block entry at padded offset `nsingle_padded + ((b·L+j)·32+a)·L+i`
receives the addition of `∂Ω/∂w[i,j,a,b]`, i.e. `∂Ω/∂w` transposed by
`(3,1,2,0)` to match the PLL pair-block memory layout. -/
theorem pll_evaluate_regularization (L : ℕ) (fxRaw fxReg : ℚ)
    (gRaw : ℕ → ℚ) (gSingleReg : ℕ → ℕ → ℚ)
    (gPairReg : ℕ → ℕ → ℕ → ℕ → ℚ) :
    (pllEvaluate L fxRaw fxReg gRaw gSingleReg gPairReg).1 =
      fxRaw + fxReg ∧
    (∀ k, k < L * 20 →
      (pllEvaluate L fxRaw fxReg gRaw gSingleReg gPairReg).2 k =
        gRaw k + gSingleReg (k / 20) (k % 20)) ∧
    (∀ k, L * 20 ≤ k → k < nsinglePaddedPLL L →
      (pllEvaluate L fxRaw fxReg gRaw gSingleReg gPairReg).2 k = gRaw k) ∧
    (∀ i j a b, i < L → j < L → a < 32 → b < 21 →
      (pllEvaluate L fxRaw fxReg gRaw gSingleReg gPairReg).2
          (nsinglePaddedPLL L + (((b * L + j) * 32 + a) * L + i)) =
        gRaw (nsinglePaddedPLL L + (((b * L + j) * 32 + a) * L + i)) +
          gPairReg i j a b) := by
  refine ⟨rfl, ?_, ?_, ?_⟩
  · intro k hk
    simp only [pllEvaluate]
    rw [if_pos hk]
  · intro k hk1 hk2
    simp only [pllEvaluate]
    rw [if_neg (by omega), if_pos hk2]
  · intro i j a b hi hj ha hb
    simp only [pllEvaluate]
    set m := ((b * L + j) * 32 + a) * L + i with hm
    have h1 : b * L + j < 21 * L := by
      have := encode_lt hb hj
      omega
    have h2 : (b * L + j) * 32 + a < 21 * L * 32 := encode_lt h1 ha
    have h3 : m < 21 * L * 32 * L := encode_lt h2 hi
    have hbig : nsinglePaddedPLL L + m < nvarPLL L := by
      unfold nvarPLL
      have : 21 * L * 32 * L = L * L * 21 * 32 := by ring
      omega
    have hpad := pll_pad_lower L
    rw [if_neg (by omega), if_neg (by omega), if_pos hbig]
    have hsub : nsinglePaddedPLL L + m - nsinglePaddedPLL L = m := by omega
    rw [hsub, hm]
    rw [decode_mod hi, decode_div hi, decode_mod ha, decode_div ha,
      decode_mod hj, decode_div hj]

/-- Witness for C4 at `L = 1` and concrete offsets. -/
theorem pll_evaluate_regularization_witness :
    (pllEvaluate 1 2 3 flatEx vEx wEx).1 = 2 + 3 ∧
    (pllEvaluate 1 2 3 flatEx vEx wEx).2 5 = flatEx 5 + vEx 0 5 ∧
    (pllEvaluate 1 2 3 flatEx vEx wEx).2 25 = flatEx 25 ∧
    (pllEvaluate 1 2 3 flatEx vEx wEx).2
        (nsinglePaddedPLL 1 + (((20 * 1 + 0) * 32 + 31) * 1 + 0)) =
      flatEx (nsinglePaddedPLL 1 + (((20 * 1 + 0) * 32 + 31) * 1 + 0)) +
        wEx 0 0 31 20 :=
  ⟨(pll_evaluate_regularization 1 2 3 flatEx vEx wEx).1,
    (pll_evaluate_regularization 1 2 3 flatEx vEx wEx).2.1 5 (by decide),
    (pll_evaluate_regularization 1 2 3 flatEx vEx wEx).2.2.1 25 (by decide)
      (by decide),
    (pll_evaluate_regularization 1 2 3 flatEx vEx wEx).2.2.2 0 0 31 20
      (by decide) (by decide) (by decide) (by decide)⟩

/-- C5: the TreeCD class cannot run the claimed behaviour.  Its
constructor passes only 5 positional arguments to
`ContrastiveDivergence.__init__`, which requires 8 (a Python `TypeError`
at construction), and the inherited `evaluate` dispatches to
`gibbs_sample_sequences` or `sample_position_in_sequences` depending on
the `pll` flag — never to `sample_sequences`, the only method that calls
the tree-mutation primitive `mutate_along_tree` seeded by `seq0`. -/
theorem treecd_evaluate_divergence :
    treecdSuperInitArgs.length < cdInitParams.length ∧
    ∀ pll : Bool, cdEvaluateSamplerName pll ≠ treecdSamplerName := by
  constructor
  · decide
  · intro pll
    cases pll <;> decide

/-- Witness for C5 at both values of the `pll` flag. -/
theorem treecd_evaluate_divergence_witness :
    treecdSuperInitArgs.length < cdInitParams.length ∧
    cdEvaluateSamplerName false ≠ treecdSamplerName ∧
    cdEvaluateSamplerName true ≠ treecdSamplerName :=
  ⟨treecd_evaluate_divergence.1, treecd_evaluate_divergence.2 false,
    treecd_evaluate_divergence.2 true⟩

/-- C6: evaluation of the staged `init_from_raw` code at the claim's
inputs.  With matching columns (MSA ncol = raw ncol = 2), CD returns the
packed vector as claimed, but PLL errors on both singles shapes: the
raw-file contract's `2×21` singles hit the broadcast `ValueError` inside
`structured_to_linear`, and `2×20` singles pass that assignment only to
hit the `AttributeError` on the undefined `v_centering` attribute.  With
mismatching columns both objectives raise the column exception. -/
theorem pll_init_from_raw_error_paths :
    pllInitFromRaw 2 rawEx =
      .error "ValueError: could not broadcast input array" ∧
    pllInitFromRaw 2 rawEx20 =
      .error
        "AttributeError: PseudoLikelihood instance has no attribute v_centering" ∧
    pllInitFromRaw 1 rawEx =
      .error "Mismatching number of columns between MSA and raw" ∧
    cdInitFromRaw 2 rawEx =
      .ok (cdStructuredToLinear 2 rawEx.xSingle rawEx.xPair) ∧
    cdInitFromRaw 1 rawEx =
      .error "Mismatching number of columns between MSA and raw" :=
  ⟨rfl, rfl, rfl, rfl, rfl⟩

/-- C7: `apc` subtracts the product-of-column-means term
`mean(S[:,i]) * mean(S[:,j]) / mean(S)` from every entry, and on the
worked input `S = [[0,2],[2,0]]` it returns `[[-1,1],[1,-1]]`. -/
theorem apc_formula_and_example :
    (∀ (L : ℕ) (S : ℕ → ℕ → ℚ) (i j : ℕ),
      apc L S i j = S i j -
        ((∑ k ∈ Finset.range L, S k i) / L) *
          ((∑ k ∈ Finset.range L, S k j) / L) /
          ((∑ p ∈ Finset.range L, ∑ q ∈ Finset.range L, S p q) /
            (L * L))) ∧
    apc 2 matEx7 0 0 = -1 ∧ apc 2 matEx7 0 1 = 1 ∧
      apc 2 matEx7 1 0 = 1 ∧ apc 2 matEx7 1 1 = -1 := by
  refine ⟨fun L S i j => rfl, ?_, ?_, ?_, ?_⟩ <;>
    norm_num [apc, colMean, grandMean, matEx7, Finset.sum_range_succ]

/-- C8 counterexample: on the tensor supported on the gap-gap entry only,
`frobenius_score` returns 1, while the claimed gap-excluded formula
`sqrt(Σ_{a<20,b<20} w²)` gives 0: the source sums the entire trailing
axes, gap state included. -/
theorem frobenius_gap_counterexample :
    frobeniusScore 21 wGapEx 0 0 = 1 ∧
    Real.sqrt ((sumSq 20 wGapEx 0 0 : ℚ) : ℝ) = 0 ∧
    frobeniusScore 21 wGapEx 0 0 ≠
      Real.sqrt ((sumSq 20 wGapEx 0 0 : ℚ) : ℝ) := by
  have h21 : sumSq 21 wGapEx 0 0 = 1 := by
    norm_num [sumSq, wGapEx, Finset.sum_range_succ]
  have h20 : sumSq 20 wGapEx 0 0 = 0 := by
    norm_num [sumSq, wGapEx, Finset.sum_range_succ]
  refine ⟨?_, ?_, ?_⟩
  · rw [frobeniusScore, h21]
    norm_num
  · rw [h20]
    norm_num
  · rw [frobeniusScore, h21, h20]
    norm_num

/-- C8 amended: applied to an `L×L×21×21` pair-potential tensor,
`frobenius_score` satisfies `S[i,j]² = Σ_{a≤20,b≤20} w[i,j,a,b]²` — the
sum runs over the full 21×21 block, gap state included — and `S ≥ 0`
elementwise. -/
theorem frobenius_full_block (w : ℕ → ℕ → ℕ → ℕ → ℚ) (i j : ℕ) :
    0 ≤ frobeniusScore 21 w i j ∧
    frobeniusScore 21 w i j ^ 2 = ((sumSq 21 w i j : ℚ) : ℝ) := by
  have h : (0 : ℚ) ≤ sumSq 21 w i j :=
    Finset.sum_nonneg fun a _ =>
      Finset.sum_nonneg fun b _ => mul_self_nonneg _
  exact ⟨Real.sqrt_nonneg _, Real.sq_sqrt (by exact_mod_cast h)⟩

mutual

/-- The depth-annotated traversal yields the same clades, in the same
order, as the source `inner` generator. -/
theorem bfsInnerDepth_map_fst :
    ∀ (d : ℕ) (c : Clade), (bfsInnerDepth d c).map Prod.fst = bfsInner c
  | d, .mk cs => by
    simp only [bfsInnerDepth, bfsInner, List.map_append]
    congr 1
    · simp [Function.comp_def]
    · exact bfsInnerDepthList_map_fst (d + 1) cs

/-- List version of `bfsInnerDepth_map_fst`. -/
theorem bfsInnerDepthList_map_fst :
    ∀ (d : ℕ) (cs : List Clade),
      (bfsInnerDepthList d cs).map Prod.fst = bfsInnerList cs
  | _, [] => by simp [bfsInnerDepthList, bfsInnerList]
  | d, c :: cs => by
    simp only [bfsInnerDepthList, bfsInnerList, List.map_append]
    rw [bfsInnerDepth_map_fst d c, bfsInnerDepthList_map_fst d cs]

end

mutual

/-- Every clade yielded by the `inner` traversal started below depth `d`
lies at depth at least `d + 1`. -/
theorem bfsInnerDepth_depth_ge :
    ∀ (d : ℕ) (c : Clade) (p : Clade × ℕ), p ∈ bfsInnerDepth d c →
      d + 1 ≤ p.2
  | d, .mk cs, p, hp => by
    simp only [bfsInnerDepth] at hp
    rcases List.mem_append.mp hp with h | h
    · obtain ⟨c, hc, rfl⟩ := List.mem_map.mp h
      omega
    · have := bfsInnerDepthList_depth_ge (d + 1) cs p h
      omega

/-- List version of `bfsInnerDepth_depth_ge`. -/
theorem bfsInnerDepthList_depth_ge :
    ∀ (d : ℕ) (cs : List Clade) (p : Clade × ℕ),
      p ∈ bfsInnerDepthList d cs → d + 1 ≤ p.2
  | d, [], p, hp => by simp [bfsInnerDepthList] at hp
  | d, c :: cs, p, hp => by
    rcases List.mem_append.mp (by simpa only [bfsInnerDepthList] using hp)
        with h | h
    · exact bfsInnerDepth_depth_ge d c p h
    · exact bfsInnerDepthList_depth_ge d cs p h

end

/-- C9 counterexample: on `cladeEx` (root with two children, the first
subtree of depth 2, the second of depth 1), `bfs_iterator` yields the
depth sequence `[0,1,1,2,3,2]`: a node at depth 3 is yielded before a
node at depth 2, so the traversal is not breadth-first level order. -/
theorem bfs_iterator_not_level_order :
    (bfsDepth cladeEx).map Prod.snd = [0, 1, 1, 2, 3, 2] ∧
    (bfsDepth cladeEx).map Prod.fst = bfs_iterator cladeEx ∧
    ¬ List.Sorted (· ≤ ·) ((bfsDepth cladeEx).map Prod.snd) := by
  refine ⟨rfl, rfl, ?_⟩
  rw [show (bfsDepth cladeEx).map Prod.snd = [0, 1, 1, 2, 3, 2] from rfl]
  decide

/-- C9 amended: `bfs_iterator` yields the root first, then all of the
root's children (the depth-1 level, in order), and every clade yielded
after them lies at depth at least 2; below depth 1 the traversal descends
subtree by subtree and is not level order in general. -/
theorem bfs_iterator_order (t : Clade) :
    (bfsDepth t).map Prod.fst = bfs_iterator t ∧
    ∃ rest, (bfsDepth t).map Prod.snd =
        0 :: (List.replicate t.clades.length 1 ++ rest) ∧
      ∀ d ∈ rest, 2 ≤ d := by
  obtain ⟨cs⟩ := t
  refine ⟨?_, (bfsInnerDepthList 1 cs).map Prod.snd, ?_, ?_⟩
  · rw [bfsDepth, bfs_iterator, List.map_cons,
      bfsInnerDepth_map_fst 0 (Clade.mk cs)]
  · rw [bfsDepth]
    simp only [List.map_cons, bfsInnerDepth, List.map_append, List.map_map,
      Nat.zero_add, Clade.clades]
    congr 2
    simp [Function.comp_def, List.map_const']
  · intro d hd
    obtain ⟨p, hp, rfl⟩ := List.mem_map.mp hd
    exact bfsInnerDepthList_depth_ge 1 cs p hp

/-- Witness for C9 (amended) on the concrete tree `cladeEx`. -/
theorem bfs_iterator_order_witness :
    (bfsDepth cladeEx).map Prod.fst = bfs_iterator cladeEx ∧
    ∃ rest, (bfsDepth cladeEx).map Prod.snd =
        0 :: (List.replicate cladeEx.clades.length 1 ++ rest) ∧
      ∀ d ∈ rest, 2 ≤ d :=
  bfs_iterator_order cladeEx

/-- C10: `write_triplets` errors exactly when a key is missing; on
success with matching list lengths it emits the header count
`len(triplets)` and the zipped entries sorted by potential in
non-increasing order (a permutation of the zip, one line per triplet). -/
theorem write_triplets_spec (raw : TripletRaw) :
    (raw.triplets = none ∨ raw.xTriplet = none →
      ∃ e, writeTriplets raw = .error e) ∧
    (∀ t xt, raw.triplets = some t → raw.xTriplet = some xt →
      ∃ out, writeTriplets raw = .ok out ∧
        (t.length = xt.length →
          out.1 = t.length ∧ out.2.length = t.length) ∧
        out.2.Perm (t.zip xt) ∧
        List.Sorted (fun p q : List ℕ × ℚ => q.2 ≤ p.2) out.2) := by
  obtain ⟨tOpt, xOpt⟩ := raw
  constructor
  · intro h
    rcases tOpt with _ | t
    · exact ⟨_, rfl⟩
    · rcases xOpt with _ | xt
      · exact ⟨_, rfl⟩
      · simp at h
  · intro t xt ht hxt
    simp only [Option.some.injEq] at ht hxt
    subst ht
    subst hxt
    refine ⟨((t.zip xt).length,
      (t.zip xt).insertionSort (fun p q => q.2 ≤ p.2)), rfl, ?_, ?_, ?_⟩
    · intro hlen
      refine ⟨by simp [List.length_zip, hlen], ?_⟩
      rw [(List.perm_insertionSort _ _).length_eq]
      simp [List.length_zip, hlen]
    · exact List.perm_insertionSort _ _
    · haveI : IsTotal (List ℕ × ℚ) (fun p q => q.2 ≤ p.2) :=
        ⟨fun a b => le_total b.2 a.2⟩
      haveI : IsTrans (List ℕ × ℚ) (fun p q => q.2 ≤ p.2) :=
        ⟨fun a b c h1 h2 => le_trans h2 h1⟩
      exact List.sorted_insertionSort _ _

/-- Witness for C10: the missing-key example errors, and the two-triplet
example succeeds with header 2, two sorted output lines. -/
theorem write_triplets_spec_witness :
    (∃ e, writeTriplets tripletRawMissingEx = .error e) ∧
    (∃ out, writeTriplets tripletRawEx = .ok out ∧
      (tripletsEx.length = xTripletEx.length →
        out.1 = tripletsEx.length ∧ out.2.length = tripletsEx.length) ∧
      out.2.Perm (tripletsEx.zip xTripletEx) ∧
      List.Sorted (fun p q : List ℕ × ℚ => q.2 ≤ p.2) out.2) :=
  ⟨(write_triplets_spec tripletRawMissingEx).1 (Or.inr rfl),
    (write_triplets_spec tripletRawEx).2 tripletsEx xTripletEx rfl rfl⟩

end CCMpred
